import Mathlib

/-!
Shallow embedding of the `ExpandVec` crate (src/src/lib.rs).

The Rust struct `ExpandVec<T: Default + Clone>` wraps a `Vec<T>` in its
single field `inner`.  We model `Vec<T>` as `List T`, the `Default` bound as
`Inhabited`, and `Clone` as value duplication (which is what
`vec![Default::default(); n]` performs).  Mutable references are modelled by
returning the value readable through the reference; a panic (the `unwrap` in
`expand_get_mut`) is modelled as `none`, while a successful return of a
reference to a slot holding value `x` is `some x`.  Methods taking
`&mut self` additionally return the post-state of the buffer; for
`expand_get_mut` the post-state records any extension performed before the
final `unwrap`, so that the mutation-then-panic order of the source is kept.
-/

structure ExpandVec (T : Type) where
  inner : List T
deriving DecidableEq

namespace ExpandVec

variable {T : Type}

/-- Rust: `pub fn new() -> Self { Self { inner: Vec::new() } }` -/
def new : ExpandVec T :=
  ExpandVec.mk []

/-- Rust: `pub fn push(&mut self, value: T) { self.inner.push(value) }` -/
def push (v : ExpandVec T) (value : T) : ExpandVec T :=
  ExpandVec.mk (v.inner ++ [value])

/-- The length of the inner vector, `self.inner.len()`. -/
def len (v : ExpandVec T) : Nat :=
  v.inner.length

/-- Rust: `pub fn get<I>(&self, index: I) -> Option<&I::Output>`, instantiated
at a single position `index: usize`; it delegates to `self.inner.get(index)`,
which is `Some` of the element exactly when `index` is in bounds. -/
def get (v : ExpandVec T) (index : Nat) : Option T :=
  v.inner[index]?

/-- Rust: `pub fn get_mut<I>(&mut self, index: I) -> Option<&mut I::Output>`
at a single position.  It delegates to `self.inner.get_mut(index)`.  The call
itself restructures nothing, so the post-state is the buffer unchanged; the
second component is the value behind the returned reference, or `none` when
out of bounds. -/
def get_mut (v : ExpandVec T) (index : Nat) : ExpandVec T × Option T :=
  (v, v.inner[index]?)

/-- Rust: `pub fn expand_get_mut(&mut self, index: usize) -> &mut T`.
The source is

  if index > self.inner.len() \x7b
      let remaining = index - self.inner.len();
      self.inner.extend(vec![Default::default(); remaining])
  \x7d
  self.inner.get_mut(index).unwrap()

`extend` with `vec![Default::default(); remaining]` appends
`List.replicate remaining default`; the trailing `unwrap` of
`self.inner.get_mut(index)` is `none` when it panics. -/
def expand_get_mut [Inhabited T] (v : ExpandVec T) (index : Nat) :
    ExpandVec T × Option T :=
  let inner1 :=
    if index > v.inner.length then
      v.inner ++ List.replicate (index - v.inner.length) (default : T)
    else
      v.inner
  (ExpandVec.mk inner1, inner1[index]?)

/-- Rust: `pub fn raw_vec(self) -> Vec<T> { self.inner }` -/
def raw_vec (v : ExpandVec T) : List T :=
  v.inner

/-- Rust: `impl Default for ExpandVec { fn default() -> Self { Self::new() } }` -/
def default : ExpandVec T :=
  new

/-- Unfolding lemma separating the two branches of `expand_get_mut`. -/
theorem expand_get_mut_eq [Inhabited T] (v : ExpandVec T) (index : Nat) :
    v.expand_get_mut index =
      if index > v.inner.length then
        (ExpandVec.mk
            (v.inner ++
              List.replicate (index - v.inner.length) (Inhabited.default : T)),
          (v.inner ++ List.replicate (index - v.inner.length)
              (Inhabited.default : T))[index]?)
      else
        (v, v.inner[index]?) := by
  unfold expand_get_mut
  split <;> rfl

end ExpandVec

/-- C1: the claim says that for index >= length, expand_get_mut appends
exactly index + 1 - length default elements, reaching length index + 1, and
returns a reference to slot index.  The code instead extends only when
index > length, and only by index - length elements, so the final
inner.get_mut(index).unwrap() always panics (modelled as none).  Evaluated at
the failing input: the empty buffer with index 0, where the length stays 0
instead of becoming 1 and no reference is produced. -/
theorem c1_expand_beyond_bounds_panics :
    ((ExpandVec.new : ExpandVec Nat).expand_get_mut 0).2 = none ∧
    ((ExpandVec.new : ExpandVec Nat).expand_get_mut 0).1.len = 0 := by
  decide

/-- C2: the claim says the unwrap after the conditional extension is
unreachable and that length > index holds after every call.  Evaluated at the
failing input, the buffer [5] with index 2: the code extends the storage to
[5, 0], of length exactly 2, so inner.get_mut(2) is None, the unwrap panics
(modelled as none), and length > index fails. -/
theorem c2_unwrap_is_reachable :
    ((ExpandVec.mk [5] : ExpandVec Nat).expand_get_mut 2).2 = none ∧
    ¬ ((ExpandVec.mk [5] : ExpandVec Nat).expand_get_mut 2).1.len > 2 := by
  decide

/-- C3: the claim says that at index exactly equal to the length, exactly one
default element is appended and a reference to it is returned.  Evaluated at
the failing input, the buffer [7] with index 1: the strict greater-than check
skips the extension entirely, zero elements are appended (length stays 1) and
the unwrap panics (modelled as none). -/
theorem c3_one_past_end_appends_nothing :
    ((ExpandVec.mk [7] : ExpandVec Nat).expand_get_mut 1).1.len = 1 ∧
    ((ExpandVec.mk [7] : ExpandVec Nat).expand_get_mut 1).2 = none := by
  decide

/-- C4: for index < length, expand_get_mut leaves the buffer unchanged and
returns a reference to the pre-existing element at position index. -/
theorem c4_expand_within_bounds_noop [Inhabited T] (v : ExpandVec T)
    (index : Nat) (h : index < v.len) :
    (v.expand_get_mut index).1 = v ∧
    (v.expand_get_mut index).2 = some (v.inner.get ⟨index, h⟩) := by
  have hnot : ¬ index > v.inner.length := Nat.not_lt.mpr (Nat.le_of_lt h)
  rw [ExpandVec.expand_get_mut_eq, if_neg hnot]
  exact ⟨rfl, List.getElem?_eq_getElem h⟩

/-- C4 witness: on the buffer [3, 4] at index 1, the hypothesis holds and the
theorem applies. -/
theorem c4_witness :
    1 < (ExpandVec.mk [3, 4] : ExpandVec Nat).len ∧
    (((ExpandVec.mk [3, 4] : ExpandVec Nat).expand_get_mut 1).1
        = ExpandVec.mk [3, 4] ∧
      ((ExpandVec.mk [3, 4] : ExpandVec Nat).expand_get_mut 1).2
        = some ((ExpandVec.mk [3, 4] : ExpandVec Nat).inner.get ⟨1, by decide⟩)) :=
  ⟨by decide, c4_expand_within_bounds_noop (ExpandVec.mk [3, 4]) 1 (by decide)⟩

/-- C5: for every position at or beyond the length, get and get_mut return
none; for every position below the length they return the stored element at
that position; get takes the buffer immutably and get_mut leaves the buffer
unchanged, so neither mutates or expands the storage. -/
theorem c5_fixed_access_bounds (v : ExpandVec T) (i : Nat) :
    (v.len ≤ i → v.get i = none ∧ (v.get_mut i).2 = none) ∧
    (∀ h : i < v.len,
      v.get i = some (v.inner.get ⟨i, h⟩) ∧
        (v.get_mut i).2 = some (v.inner.get ⟨i, h⟩)) ∧
    (v.get_mut i).1 = v := by
  refine ⟨?_, ?_, rfl⟩
  · intro hle
    have hnone : v.inner[i]? = none := List.getElem?_eq_none hle
    exact ⟨hnone, hnone⟩
  · intro h
    have hsome : v.inner[i]? = some (v.inner.get ⟨i, h⟩) :=
      List.getElem?_eq_getElem h
    exact ⟨hsome, hsome⟩

/-- C5 witness: on the buffer [9], position 2 is out of bounds and get
returns none there. -/
theorem c5_witness :
    (ExpandVec.mk [9] : ExpandVec Nat).len ≤ 2 ∧
    (ExpandVec.mk [9] : ExpandVec Nat).get 2 = none :=
  ⟨by decide,
    ((c5_fixed_access_bounds (ExpandVec.mk [9]) 2).1 (by decide)).1⟩

/-- C6: push appends the value at the end: the length grows by exactly one,
get at the old length returns the pushed value, and every position strictly
below the old length is unchanged. -/
theorem c6_push_appends (v : ExpandVec T) (x : T) :
    (v.push x).len = v.len + 1 ∧
    (v.push x).get v.len = some x ∧
    ∀ i, i < v.len → (v.push x).get i = v.get i := by
  refine ⟨?_, ?_, ?_⟩
  · show (v.inner ++ [x]).length = v.inner.length + 1
    simp
  · show (v.inner ++ [x])[v.inner.length]? = some x
    simp
  · intro i hi
    show (v.inner ++ [x])[i]? = v.inner[i]?
    rw [List.getElem?_append, if_pos (show i < v.inner.length from hi)]

/-- C6 witness: pushing 2 onto the buffer [1] leaves position 0 unchanged. -/
theorem c6_witness :
    0 < (ExpandVec.mk [1] : ExpandVec Nat).len ∧
    ((ExpandVec.mk [1] : ExpandVec Nat).push 2).get 0
      = (ExpandVec.mk [1] : ExpandVec Nat).get 0 :=
  ⟨by decide, (c6_push_appends (ExpandVec.mk [1]) 2).2.2 0 (by decide)⟩

/-- C7: the claim says two consecutive calls of expand_get_mut at the same
index yield references to the same element and the second call does not
change the length.  Evaluated at the failing input, the empty buffer with
index 1: the first call already panics at the unwrap (it extends the storage
only up to length 1 = index, so slot 1 does not exist, modelled as none), so
no element is yielded even once. -/
theorem c7_first_call_already_panics :
    ((ExpandVec.new : ExpandVec Nat).expand_get_mut 1).2 = none ∧
    ((ExpandVec.new : ExpandVec Nat).expand_get_mut 1).1.len = 1 := by
  decide

/-- C8: no operation of the public interface shrinks the buffer: push grows
the length by one, get_mut keeps it equal, and expand_get_mut never
decreases it (even on the panicking paths the extension only adds elements);
get takes the buffer by shared reference and has no post-state at all. -/
theorem c8_length_monotone [Inhabited T] (v : ExpandVec T) (x : T) (i : Nat) :
    v.len ≤ (v.push x).len ∧
    (v.get_mut i).1.len = v.len ∧
    v.len ≤ (v.expand_get_mut i).1.len := by
  refine ⟨?_, rfl, ?_⟩
  · show v.inner.length ≤ (v.inner ++ [x]).length
    simp
  · rw [ExpandVec.expand_get_mut_eq]
    split
    · show v.inner.length ≤ (v.inner ++ List.replicate _ _).length
      simp
    · exact Nat.le_refl _

/-- C9: raw_vec returns the inner sequence itself: it has the same length as
the buffer and, position by position, its elements are exactly what get
observed before the call. -/
theorem c9_raw_vec_preserves (v : ExpandVec T) :
    v.raw_vec.length = v.len ∧ ∀ i, v.raw_vec[i]? = v.get i :=
  ⟨rfl, fun _ => rfl⟩

/-- C10: the Default implementation delegates to new, so it is the same
value: the empty buffer, of length 0, on which get 0 returns none. -/
theorem c10_default_is_new (T : Type) :
    (ExpandVec.default : ExpandVec T) = ExpandVec.new ∧
    (ExpandVec.default : ExpandVec T).len = 0 ∧
    (ExpandVec.default : ExpandVec T).get 0 = none :=
  ⟨rfl, rfl, rfl⟩
